import Mathlib

/-!
Verification of the SwimPacer pace-line model
(`src/portable_pace_line_interactive_model_react.jsx`).

The core is the pure function `timeToMeters` mapping elapsed seconds to the
pacing marker's position along the lane, together with the derived head LED
index, tail sample positions, and distance markers.  All real arithmetic of
the source is embedded over `ℚ`; `Math.floor` is `Int.floor`, `Math.round`
is Mathlib's `round` (both round half towards `+∞`), and JavaScript's `%`
on the non-negative cycle index agrees with `Int.tmod`.
-/

namespace SwimPacer

/-- Travel mode: `loop` resets to the start wall each lap, `pingpong`
reverses direction on odd laps. -/
inductive Mode
  | loop
  | pingpong
deriving DecidableEq

/-- The parameter set held by the component state: pool length (m), pace in
seconds per 50 m, travel mode, dwell at each wall (s), LED density (LEDs per
meter) and visual tail length in LEDs. -/
structure PacingParameters where
  poolLen : ℚ
  secPer50 : ℚ
  mode : Mode
  turnDwell : ℚ
  ledsPerM : ℚ
  tailLen : ℕ

/-- `secPerM = secPer50 / 50` (line 31 of the source). -/
def secPerM (p : PacingParameters) : ℚ := p.secPer50 / 50

/-- `travelT = secPerM * poolLen`: time to traverse the lane one way,
ignoring dwell (line 93). -/
def travelT (p : PacingParameters) : ℚ := secPerM p * p.poolLen

/-- `cycleT = travelT + 2 * turnDwell`: one full cycle including dwell at
both walls (line 94). -/
def cycleT (p : PacingParameters) : ℚ := travelT p + 2 * p.turnDwell

/-- `n = Math.floor(t / cycleT)` (line 97). -/
def cycleIndex (p : PacingParameters) (t : ℚ) : ℤ := ⌊t / cycleT p⌋

/-- `tc = t - n * cycleT`: time within the current cycle (line 98). -/
def timeInCycle (p : PacingParameters) (t : ℚ) : ℚ :=
  t - cycleIndex p t * cycleT p

/-- The piecewise position within a cycle before the mode adjustment
(lines 100-103): dwell at the start wall, dwell at the far wall, or linear
travel. -/
def pieceX (p : PacingParameters) (tc : ℚ) : ℚ :=
  if tc < p.turnDwell then 0
  else if tc > travelT p + p.turnDwell then p.poolLen
  else (tc - p.turnDwell) / secPerM p

/-- `timeToMeters` (lines 92-114): elapsed seconds to marker position in
meters.  Guards the zero cycle time, computes the piecewise position in the
cycle, reflects it on odd ping-pong laps, and clamps to `[0, poolLen]`. -/
def timeToMeters (p : PacingParameters) (t : ℚ) : ℚ :=
  if cycleT p = 0 then 0
  else
    let x0 := pieceX p (timeInCycle p t)
    let x := if p.mode = Mode.pingpong ∧ (cycleIndex p t).tmod 2 = 1
      then p.poolLen - x0 else x0
    max 0 (min p.poolLen x)

/-- `headIndex = Math.round(xMeters * ledsPerM)` (line 117). -/
def headIndex (p : PacingParameters) (t : ℚ) : ℤ :=
  round (timeToMeters p t * p.ledsPerM)

/-- `tailMeters` (lines 132-140): for `k = 0 .. tailLen-1` the candidate
LED index `headIndex - k` converted back to meters, kept only when inside
`[0, poolLen]`, in order of increasing `k`. -/
def tailMeters (p : PacingParameters) (t : ℚ) : List ℚ :=
  (List.range p.tailLen).filterMap fun k : ℕ =>
    let idx : ℤ := headIndex p t - (k : ℤ)
    let m : ℚ := (idx : ℚ) / p.ledsPerM
    if 0 ≤ m ∧ m ≤ p.poolLen then some m else none

/-- `markerMs` (lines 35-38): the canonical distance markers `15/25/35/50`
restricted to those not exceeding the pool length. -/
def markerMs (poolLen : ℚ) : List ℚ :=
  [15, 25, 35, 50].filter fun m => decide (m ≤ poolLen)

/-- Validity of the parameters as stated by the spec contract:
positive pool length, positive pace, non-negative dwell. -/
def Valid (p : PacingParameters) : Prop :=
  0 < p.poolLen ∧ 0 < p.secPer50 ∧ 0 ≤ p.turnDwell

/-! ### Basic lemmas -/

lemma secPerM_pos (p : PacingParameters) (hv : Valid p) : 0 < secPerM p :=
  div_pos hv.2.1 (by norm_num)

lemma travelT_pos (p : PacingParameters) (hv : Valid p) : 0 < travelT p :=
  mul_pos (secPerM_pos p hv) hv.1

lemma cycleT_pos (p : PacingParameters) (hv : Valid p) : 0 < cycleT p := by
  have h1 := travelT_pos p hv
  have h2 := hv.2.2
  unfold cycleT
  linarith

lemma timeInCycle_nonneg (p : PacingParameters) (t : ℚ)
    (hc : 0 < cycleT p) : 0 ≤ timeInCycle p t := by
  unfold timeInCycle cycleIndex
  have h := Int.floor_le (t / cycleT p)
  have : (⌊t / cycleT p⌋ : ℚ) * cycleT p ≤ t / cycleT p * cycleT p :=
    mul_le_mul_of_nonneg_right h (le_of_lt hc)
  rw [div_mul_cancel₀ t (ne_of_gt hc)] at this
  linarith

lemma timeInCycle_lt (p : PacingParameters) (t : ℚ)
    (hc : 0 < cycleT p) : timeInCycle p t < cycleT p := by
  unfold timeInCycle cycleIndex
  have h := Int.lt_floor_add_one (t / cycleT p)
  have : t / cycleT p * cycleT p < ((⌊t / cycleT p⌋ : ℚ) + 1) * cycleT p :=
    mul_lt_mul_of_pos_right h hc
  rw [div_mul_cancel₀ t (ne_of_gt hc)] at this
  linarith [this]

lemma pieceX_nonneg (p : PacingParameters) (tc : ℚ) (hv : Valid p) :
    0 ≤ pieceX p tc := by
  unfold pieceX
  split
  · exact le_refl 0
  · split
    · exact le_of_lt hv.1
    · rename_i h1 h2
      push_neg at h1
      exact div_nonneg (by linarith) (le_of_lt (secPerM_pos p hv))

lemma pieceX_le (p : PacingParameters) (tc : ℚ) (hv : Valid p) :
    pieceX p tc ≤ p.poolLen := by
  unfold pieceX
  split
  · exact le_of_lt hv.1
  · split
    · exact le_refl _
    · rename_i h1 h2
      push_neg at h1 h2
      have hs := secPerM_pos p hv
      rw [div_le_iff₀ hs]
      unfold travelT at h2
      linarith [h2]

lemma clamp_eq (L x : ℚ) (h0 : 0 ≤ x) (hL : x ≤ L) : max 0 (min L x) = x := by
  rw [min_eq_right hL, max_eq_right h0]

lemma cycleIndex_add (p : PacingParameters) (t : ℚ) (hc : 0 < cycleT p) :
    cycleIndex p (t + cycleT p) = cycleIndex p t + 1 := by
  unfold cycleIndex
  rw [add_div, div_self (ne_of_gt hc), Int.floor_add_one]

lemma timeInCycle_add (p : PacingParameters) (t : ℚ) (hc : 0 < cycleT p) :
    timeInCycle p (t + cycleT p) = timeInCycle p t := by
  unfold timeInCycle
  rw [cycleIndex_add p t hc]
  push_cast
  ring

lemma cycleIndex_nonneg (p : PacingParameters) (t : ℚ) (hc : 0 < cycleT p)
    (ht : 0 ≤ t) : 0 ≤ cycleIndex p t :=
  Int.floor_nonneg.mpr (div_nonneg ht (le_of_lt hc))

/-- Under valid parameters the final clamp of `timeToMeters` is the
identity, so the function is the piecewise value with the ping-pong
reflection applied. -/
lemma timeToMeters_eq (p : PacingParameters) (t : ℚ) (hv : Valid p) :
    timeToMeters p t =
      if p.mode = Mode.pingpong ∧ (cycleIndex p t).tmod 2 = 1
      then p.poolLen - pieceX p (timeInCycle p t)
      else pieceX p (timeInCycle p t) := by
  have hc := cycleT_pos p hv
  have h0 := pieceX_nonneg p (timeInCycle p t) hv
  have hL := pieceX_le p (timeInCycle p t) hv
  unfold timeToMeters
  rw [if_neg (ne_of_gt hc)]
  split
  · exact clamp_eq _ _ (by linarith) (by linarith)
  · exact clamp_eq _ _ h0 hL

/-! ### Concrete parameter sets used in witnesses and examples -/

/-- 50 m pool, 50 s per 50 m, loop mode, no dwell, 60 LEDs/m, tail 3. -/
def pLoop : PacingParameters := ⟨50, 50, Mode.loop, 0, 60, 3⟩

/-- Same as `pLoop` but ping-pong mode. -/
def pPing : PacingParameters := ⟨50, 50, Mode.pingpong, 0, 60, 3⟩

/-- 50 m pool, 50 s per 50 m, loop mode, 1 s dwell. -/
def pLoopDwell : PacingParameters := ⟨50, 50, Mode.loop, 1, 60, 3⟩

/-- 50 m pool, 50 s per 50 m, ping-pong mode, 1 s dwell. -/
def pPingDwell : PacingParameters := ⟨50, 50, Mode.pingpong, 1, 60, 3⟩

lemma pLoop_valid : Valid pLoop :=
  ⟨by norm_num [pLoop], by norm_num [pLoop], by norm_num [pLoop]⟩

lemma pPing_valid : Valid pPing :=
  ⟨by norm_num [pPing], by norm_num [pPing], by norm_num [pPing]⟩

lemma pLoopDwell_valid : Valid pLoopDwell :=
  ⟨by norm_num [pLoopDwell], by norm_num [pLoopDwell], by norm_num [pLoopDwell]⟩

lemma pPingDwell_valid : Valid pPingDwell :=
  ⟨by norm_num [pPingDwell], by norm_num [pPingDwell], by norm_num [pPingDwell]⟩

/-! ### Claims -/

/-- Claim C1: for every `elapsedSeconds ≥ 0` and valid parameters
(`poolLen > 0`, `secPer50 > 0`, `turnDwell ≥ 0`), the position returned by
`timeToMeters` lies within `[0, poolLen]` inclusive. -/
theorem position_bounded (p : PacingParameters) (t : ℚ) (hv : Valid p)
    (ht : 0 ≤ t) :
    0 ≤ timeToMeters p t ∧ timeToMeters p t ≤ p.poolLen := by
  unfold timeToMeters
  split
  · exact ⟨le_refl 0, le_of_lt hv.1⟩
  · exact ⟨le_max_left 0 _, max_le (le_of_lt hv.1) (min_le_left _ _)⟩

/-- Witness for C1 at `pLoop`, `t = 25`. -/
theorem position_bounded_witness :
    0 ≤ timeToMeters pLoop 25 ∧ timeToMeters pLoop 25 ≤ pLoop.poolLen :=
  position_bounded pLoop 25 pLoop_valid (by norm_num)

/-- Claim C2: in Loop mode, for every `t ≥ 0` and valid parameters,
`position(t + cycleTime) = position(t)` where
`cycleTime = secPer50/50 * poolLen + 2 * turnDwell`. -/
theorem loop_periodic (p : PacingParameters) (t : ℚ) (hv : Valid p)
    (hm : p.mode = Mode.loop) (ht : 0 ≤ t) :
    timeToMeters p (t + (p.secPer50 / 50 * p.poolLen + 2 * p.turnDwell)) =
      timeToMeters p t := by
  have hc := cycleT_pos p hv
  have hcy : p.secPer50 / 50 * p.poolLen + 2 * p.turnDwell = cycleT p := rfl
  rw [hcy, timeToMeters_eq p _ hv, timeToMeters_eq p t hv,
    timeInCycle_add p t hc]
  simp [hm]

/-- Witness for C2 at `pLoop`, `t = 25`. -/
theorem loop_periodic_witness :
    timeToMeters pLoop
        (25 + (pLoop.secPer50 / 50 * pLoop.poolLen + 2 * pLoop.turnDwell)) =
      timeToMeters pLoop 25 :=
  loop_periodic pLoop 25 pLoop_valid rfl (by norm_num)

/-- Claim C3: in PingPong mode, for every `t ≥ 0` and valid parameters,
`position(t + cycleTime) = poolLen - position(t)` (the cycle index parity
flips), and `position(t + 2 * cycleTime) = position(t)`. -/
theorem pingpong_reflection (p : PacingParameters) (t : ℚ) (hv : Valid p)
    (hm : p.mode = Mode.pingpong) (ht : 0 ≤ t) :
    timeToMeters p (t + cycleT p) = p.poolLen - timeToMeters p t ∧
      timeToMeters p (t + 2 * cycleT p) = timeToMeters p t := by
  have hc := cycleT_pos p hv
  have key : ∀ s : ℚ, 0 ≤ s →
      timeToMeters p (s + cycleT p) = p.poolLen - timeToMeters p s := by
    intro s hs
    have hn : 0 ≤ cycleIndex p s := cycleIndex_nonneg p s hc hs
    rw [timeToMeters_eq p _ hv, timeToMeters_eq p s hv,
      timeInCycle_add p s hc, cycleIndex_add p s hc]
    have hpar : ((cycleIndex p s + 1).tmod 2 = 1) ↔
        ¬ ((cycleIndex p s).tmod 2 = 1) := by
      rw [Int.tmod_eq_emod hn (by norm_num),
        Int.tmod_eq_emod (by omega) (by norm_num)]
      omega
    by_cases hodd : (cycleIndex p s).tmod 2 = 1
    · rw [if_neg (by simp [hpar, hodd]), if_pos ⟨hm, hodd⟩]
      ring
    · rw [if_pos ⟨hm, hpar.mpr hodd⟩, if_neg (by simp [hodd])]
  refine ⟨key t ht, ?_⟩
  have h2 : t + 2 * cycleT p = (t + cycleT p) + cycleT p := by ring
  rw [h2, key (t + cycleT p) (by linarith), key t ht]
  ring

/-- Witness for C3 at `pPing`, `t = 25`. -/
theorem pingpong_reflection_witness :
    timeToMeters pPing (25 + cycleT pPing) =
        pPing.poolLen - timeToMeters pPing 25 ∧
      timeToMeters pPing (25 + 2 * cycleT pPing) = timeToMeters pPing 25 :=
  pingpong_reflection pPing 25 pPing_valid rfl (by norm_num)

/-- Claim C4, counterexample: the dwell-hold property fails "in either
mode".  With `pPingDwell` (ping-pong, dwell 1 s) at `t = 52.5` the time in
cycle is `0.5 < 1 = turnDwell`, yet the position is `50`, not `0`: on an odd
ping-pong lap the start-wall dwell is reflected to the far wall. -/
theorem dwell_holds_counterexample :
    Valid pPingDwell ∧ 0 < pPingDwell.turnDwell ∧ (0 : ℚ) ≤ 105 / 2 ∧
      timeInCycle pPingDwell (105 / 2) < pPingDwell.turnDwell ∧
      timeToMeters pPingDwell (105 / 2) ≠ 0 := by
  refine ⟨pPingDwell_valid, by norm_num [pPingDwell], by norm_num, ?_, ?_⟩
  · unfold timeInCycle cycleIndex cycleT travelT secPerM pPingDwell
    norm_num
  · unfold timeToMeters pieceX timeInCycle cycleIndex cycleT travelT
      secPerM pPingDwell
    norm_num [Int.tmod]

/-- Claim C4, amended: for `turnDwell = d > 0`, `t ≥ 0` and valid
parameters, in Loop mode — or in PingPong mode on an even cycle index —
`position(t) = 0` whenever `timeInCycle < d`, and `position(t) = poolLen`
whenever `timeInCycle` lies in the open interval
`(travelT + d, cycleT)`. -/
theorem dwell_holds_amended (p : PacingParameters) (t : ℚ) (hv : Valid p)
    (hd : 0 < p.turnDwell) (ht : 0 ≤ t)
    (hmode : p.mode = Mode.loop ∨
      (p.mode = Mode.pingpong ∧ (cycleIndex p t).tmod 2 = 0)) :
    (timeInCycle p t < p.turnDwell → timeToMeters p t = 0) ∧
      (travelT p + p.turnDwell < timeInCycle p t →
        timeInCycle p t < cycleT p → timeToMeters p t = p.poolLen) := by
  have hrefl : ¬ (p.mode = Mode.pingpong ∧ (cycleIndex p t).tmod 2 = 1) := by
    rcases hmode with h | ⟨h1, h2⟩
    · rintro ⟨hp, -⟩
      rw [h] at hp
      exact Mode.noConfusion hp
    · rintro ⟨-, hp⟩
      rw [h2] at hp
      exact one_ne_zero hp.symm
  rw [timeToMeters_eq p t hv, if_neg hrefl]
  constructor
  · intro hlt
    unfold pieceX
    rw [if_pos hlt]
  · intro hgt hlt
    unfold pieceX
    rw [if_neg (by have := travelT_pos p hv; push_neg; linarith),
      if_pos hgt]

/-- Witness for the amended C4 at `pLoopDwell`, `t = 0.5`: still dwelling
at the start wall. -/
theorem dwell_holds_amended_witness :
    timeToMeters pLoopDwell (1 / 2) = 0 :=
  (dwell_holds_amended pLoopDwell (1 / 2) pLoopDwell_valid
      (by norm_num [pLoopDwell]) (by norm_num)
      (Or.inl rfl)).1
    (by unfold timeInCycle cycleIndex cycleT travelT secPerM pLoopDwell
        norm_num)

/-- Claim C5: with valid parameters, within the non-dwell travel segment of
a single cycle — Loop mode, or an even-parity cycle in PingPong mode —
position is strictly increasing in `t`. -/
theorem monotonic_travel (p : PacingParameters) (t1 t2 : ℚ) (hv : Valid p)
    (hmode : p.mode = Mode.loop ∨
      (p.mode = Mode.pingpong ∧ (cycleIndex p t1).tmod 2 = 0))
    (ht1 : 0 ≤ t1) (hlt : t1 < t2)
    (hsame : cycleIndex p t1 = cycleIndex p t2)
    (h1 : p.turnDwell ≤ timeInCycle p t1)
    (h1b : timeInCycle p t1 ≤ travelT p + p.turnDwell)
    (h2 : p.turnDwell ≤ timeInCycle p t2)
    (h2b : timeInCycle p t2 ≤ travelT p + p.turnDwell) :
    timeToMeters p t1 < timeToMeters p t2 := by
  have hs := secPerM_pos p hv
  have hrefl : ∀ s : ℚ, cycleIndex p s = cycleIndex p t1 →
      ¬ (p.mode = Mode.pingpong ∧ (cycleIndex p s).tmod 2 = 1) := by
    intro s hss
    rcases hmode with h | ⟨hm1, hm2⟩
    · rintro ⟨hp, -⟩
      rw [h] at hp
      exact Mode.noConfusion hp
    · rintro ⟨-, hp⟩
      rw [hss, hm2] at hp
      exact one_ne_zero hp.symm
  rw [timeToMeters_eq p t1 hv, if_neg (hrefl t1 rfl),
    timeToMeters_eq p t2 hv, if_neg (hrefl t2 hsame.symm)]
  unfold pieceX
  rw [if_neg (not_lt.mpr h1), if_neg (not_lt.mpr h1b),
    if_neg (not_lt.mpr h2), if_neg (not_lt.mpr h2b)]
  have hdiff : timeInCycle p t1 < timeInCycle p t2 := by
    unfold timeInCycle
    rw [hsame]
    linarith
  gcongr

/-- Witness for C5 at `pLoop`, `t1 = 10 < t2 = 20` in cycle 0. -/
theorem monotonic_travel_witness :
    timeToMeters pLoop 10 < timeToMeters pLoop 20 :=
  monotonic_travel pLoop 10 20 pLoop_valid (Or.inl rfl)
    (by norm_num) (by norm_num)
    (by unfold cycleIndex cycleT travelT secPerM pLoop; norm_num)
    (by unfold timeInCycle cycleIndex cycleT travelT secPerM pLoop; norm_num)
    (by unfold timeInCycle cycleIndex cycleT travelT secPerM pLoop; norm_num)
    (by unfold timeInCycle cycleIndex cycleT travelT secPerM pLoop; norm_num)
    (by unfold timeInCycle cycleIndex cycleT travelT secPerM pLoop; norm_num)

lemma loop_ne_pingpong : Mode.loop ≠ Mode.pingpong := fun h =>
  Mode.noConfusion h

/-- Claim C6: the spec's example scenarios hold exactly.  Loop at
50 m / 50 s / no dwell: `t=0 → 0`, `t=25 → 25`, `t=50 → 0`,
`t=49.999 → 49.999`.  PingPong, same parameters: `t=50 → 50`, `t=75 → 25`,
`t=100 → 0`.  Dwell 1 s (both modes agree in cycle 0): `t=0.5 → 0`,
`t=1.5 → 0.5`. -/
theorem example_scenarios :
    timeToMeters pLoop 0 = 0 ∧
      timeToMeters pLoop 25 = 25 ∧
      timeToMeters pLoop 50 = 0 ∧
      timeToMeters pLoop (49999 / 1000) = 49999 / 1000 ∧
      timeToMeters pPing 50 = 50 ∧
      timeToMeters pPing 75 = 25 ∧
      timeToMeters pPing 100 = 0 ∧
      timeToMeters pLoopDwell (1 / 2) = 0 ∧
      timeToMeters pLoopDwell (3 / 2) = 1 / 2 ∧
      timeToMeters pPingDwell (1 / 2) = 0 ∧
      timeToMeters pPingDwell (3 / 2) = 1 / 2 := by
  refine ⟨?_, ?_, ?_, ?_, ?_, ?_, ?_, ?_, ?_, ?_, ?_⟩ <;>
    · unfold timeToMeters pieceX timeInCycle cycleIndex cycleT travelT
        secPerM
      norm_num [pLoop, pPing, pLoopDwell, pPingDwell, Int.tmod,
        loop_ne_pingpong]

/-- Claim C7: `timeToMeters` is total (it is a Lean function, defined on
every rational input with no error path), and whenever
`cycleT = travelT + 2 * turnDwell` is zero the division-by-zero guard
returns exactly `0`, for every parameter set and every elapsed time. -/
theorem zero_cycle_guard (p : PacingParameters) (t : ℚ)
    (h : travelT p + 2 * p.turnDwell = 0) : timeToMeters p t = 0 := by
  have h2 : cycleT p = 0 := h
  unfold timeToMeters
  rw [if_pos h2]

/-- Witness for C7: zero pace (`secPer50 = 0`) and zero dwell make the
cycle time zero, and the position at `t = 7` is `0`. -/
theorem zero_cycle_guard_witness :
    timeToMeters ⟨50, 0, Mode.loop, 0, 60, 3⟩ 7 = 0 :=
  zero_cycle_guard ⟨50, 0, Mode.loop, 0, 60, 3⟩ 7
    (by unfold travelT secPerM; norm_num)

/-- Claim C8: for valid parameters and `t ≥ 0`, every element of the tail
sequence lies within `[0, poolLen]` and the sequence has at most `tailLen`
elements. -/
theorem tail_containment (p : PacingParameters) (t : ℚ) (hv : Valid p)
    (ht : 0 ≤ t) :
    (∀ m ∈ tailMeters p t, 0 ≤ m ∧ m ≤ p.poolLen) ∧
      (tailMeters p t).length ≤ p.tailLen := by
  constructor
  · intro m hm
    unfold tailMeters at hm
    rw [List.mem_filterMap] at hm
    obtain ⟨k, -, hk⟩ := hm
    by_cases hcond :
        0 ≤ ((headIndex p t - k : ℤ) : ℚ) / p.ledsPerM ∧
          ((headIndex p t - k : ℤ) : ℚ) / p.ledsPerM ≤ p.poolLen
    · rw [if_pos hcond] at hk
      cases hk
      exact hcond
    · rw [if_neg hcond] at hk
      exact absurd hk (Option.some_ne_none _).symm
  · unfold tailMeters
    conv_rhs => rw [← List.length_range p.tailLen]
    exact List.length_filterMap_le _ _

/-- Witness for C8 at `pLoop`, `t = 10` (position 10 m, head LED 600):
the element `10` is in bounds and the tail has at most 3 elements. -/
theorem tail_containment_witness :
    (0 ≤ (10 : ℚ) ∧ (10 : ℚ) ≤ pLoop.poolLen) ∧
      (tailMeters pLoop 10).length ≤ pLoop.tailLen := by
  have h := tail_containment pLoop 10 pLoop_valid (by norm_num)
  refine ⟨h.1 10 ?_, h.2⟩
  unfold tailMeters headIndex timeToMeters pieceX timeInCycle cycleIndex
    cycleT travelT secPerM pLoop
  norm_num [Int.tmod, List.range_succ, List.filterMap_cons]

/-- Claim C9: for every `poolLen > 0` the distance-marker sequence is the
ordered subsequence of the canonical list `[15, 25, 35, 50]` consisting of
exactly the values `≤ poolLen` (and it is a function of the pool length
alone). -/
theorem markers_canonical (L : ℚ) (hp : 0 < L) :
    List.Sublist (markerMs L) [15, 25, 35, 50] ∧
      ∀ m : ℚ, m ∈ markerMs L ↔
        m ∈ ([15, 25, 35, 50] : List ℚ) ∧ m ≤ L := by
  constructor
  · exact List.filter_sublist _
  · intro m
    unfold markerMs
    rw [List.mem_filter]
    simp

/-- Witness for C9 at a 25 m pool: the markers form a subsequence of the
canonical list, and `25` is a marker exactly because it is canonical and
`≤ 25`. -/
theorem markers_canonical_witness :
    List.Sublist (markerMs 25) [15, 25, 35, 50] ∧
      ((25 : ℚ) ∈ markerMs 25 ↔
        (25 : ℚ) ∈ ([15, 25, 35, 50] : List ℚ) ∧ (25 : ℚ) ≤ 25) :=
  ⟨(markers_canonical 25 (by norm_num)).1,
    (markers_canonical 25 (by norm_num)).2 25⟩

/-- Claim C10: in PingPong mode with dwell `d > 0`, on an odd cycle index
the position during the initial dwell window (`timeInCycle < d`) is
`poolLen` and during the final dwell window
(`timeInCycle > travelT + d`) it is `0`: the reflected dwell keeps the
marker at the wall it just reached. -/
theorem pingpong_dwell_reflected (p : PacingParameters) (t : ℚ)
    (hv : Valid p) (hd : 0 < p.turnDwell) (ht : 0 ≤ t)
    (hm : p.mode = Mode.pingpong) (hodd : (cycleIndex p t).tmod 2 = 1) :
    (timeInCycle p t < p.turnDwell → timeToMeters p t = p.poolLen) ∧
      (travelT p + p.turnDwell < timeInCycle p t → timeToMeters p t = 0) := by
  rw [timeToMeters_eq p t hv, if_pos ⟨hm, hodd⟩]
  constructor
  · intro hlt
    unfold pieceX
    rw [if_pos hlt]
    ring
  · intro hgt
    unfold pieceX
    rw [if_neg (by have := travelT_pos p hv; push_neg; linarith),
      if_pos hgt]
    ring

/-- Witness for C10 at `pPingDwell`, `t = 52.5` (cycle 1, odd; time in
cycle `0.5 < 1`): the marker dwells at the far wall, position `50`. -/
theorem pingpong_dwell_reflected_witness :
    timeToMeters pPingDwell (105 / 2) = pPingDwell.poolLen :=
  (pingpong_dwell_reflected pPingDwell (105 / 2) pPingDwell_valid
      (by norm_num [pPingDwell]) (by norm_num) rfl
      (by unfold cycleIndex cycleT travelT secPerM pPingDwell
          norm_num [Int.tmod])).1
    (by unfold timeInCycle cycleIndex cycleT travelT secPerM pPingDwell
        norm_num)

end SwimPacer
